import Mathlib

/-!
Verification of the request execution core of the atlassian-cli repository.

The development shallowly embeds the five components of the core
(BulkExecutor, RateLimiter, retry with exponential backoff, response
classification, offset pagination) as executable Lean definitions translated
from the Rust source, and proves the specified properties about them.

Conventions of the embedding:
- an anyhow error value is modelled as its message String;
- async completion reordering (buffer_unordered) is modelled by an arbitrary
  permutation-producing schedule applied to the per-item task results;
- wall-clock instants are modelled as integer milliseconds;
- f64 backoff arithmetic is modelled over the rationals;
- fallible Rust functions returning Result are modelled with Except.
-/

namespace AtlassianCli

/-! Bulk executor, from crates/bulk/src/lib.rs. -/

/-- The message of the synthetic error recorded per item by
execute_with_results in dry-run mode (anyhow says Dry run). -/
def dryRunMessage : String := "Dry run"

/-- BulkResult of crates/bulk/src/lib.rs: successes and indexed failures. -/
structure BulkResult (R : Type) where
  successful : List R
  failed : List (Nat × String)
deriving Repr, DecidableEq

namespace Bulk

/-- The per-item task results of execute_with_results, in input order,
starting at index k: items.into_iter().enumerate() pairs each item with its
zero-based index, and each task either short-circuits with the synthetic
dry-run error (dry = true) or runs the job on its item. -/
def taskResultsFrom {T R : Type} (dry : Bool) (job : T → Except String R) :
    Nat → List T → List (Nat × Except String R)
  | _, [] => []
  | k, x :: rest =>
    (k, if dry then Except.error dryRunMessage else job x) ::
      taskResultsFrom dry job (k + 1) rest

/-- Task results of execute_with_results for the whole item list (indices
start at 0, as with enumerate). -/
def taskResults {T R : Type} (dry : Bool) (items : List T)
    (job : T → Except String R) : List (Nat × Except String R) :=
  taskResultsFrom dry job 0 items

/-- The final partition loop of execute_with_results: an Ok value is pushed
onto successful, an Err is pushed onto failed together with the original
index it was paired with. -/
def partitionResults {R : Type} :
    List (Nat × Except String R) → BulkResult R
  | [] => { successful := [], failed := [] }
  | (_, Except.ok v) :: rest =>
    let br := partitionResults rest
    { successful := v :: br.successful, failed := br.failed }
  | (idx, Except.error e) :: rest =>
    let br := partitionResults rest
    { successful := br.successful, failed := (idx, e) :: br.failed }

/-- BulkExecutor::execute_with_results: every task yields an
(original index, result) pair; buffer_unordered delivers those pairs in some
completion order, modelled by the schedule argument (assumed in theorems to
permute its input); the pairs are then partitioned into the BulkResult. -/
def execute_with_results {T R : Type} (dry : Bool) (items : List T)
    (job : T → Except String R)
    (schedule : List (Nat × Except String R) → List (Nat × Except String R)) :
    BulkResult R :=
  partitionResults (schedule (taskResults dry items job))

/-- The per-item task results of BulkExecutor::run, in input order: in
dry-run mode a task skips the job and reports Ok, otherwise it reports the
job's own result. -/
def runTaskResults {T : Type} (dry : Bool) (items : List T)
    (job : T → Except String Unit) : List (Except String Unit) :=
  items.map (fun x => if dry then Except.ok () else job x)

/-- Errors returned by BulkExecutor::run: the aggregate count-only failure
of the non-fail-fast mode, or a propagated job error in fail-fast mode. -/
inductive RunError where
  | multipleFailed (count : Nat)
  | jobFailed (message : String)
deriving Repr, DecidableEq

/-- BulkExecutor::run: empty input returns Ok immediately; with fail_fast,
try_collect propagates the first error in completion order; otherwise all
results are collected and any failures are collapsed into
MultipleFailed with their count. -/
def run {T : Type} (failFast dry : Bool) (items : List T)
    (job : T → Except String Unit)
    (schedule : List (Except String Unit) → List (Except String Unit)) :
    Except RunError Unit :=
  if items.isEmpty then Except.ok ()
  else
    let results := schedule (runTaskResults dry items job)
    if failFast then
      match results.findSome?
          (fun r => match r with
            | Except.error e => some e
            | Except.ok _ => none) with
      | some e => Except.error (RunError.jobFailed e)
      | none => Except.ok ()
    else
      let failures := results.filterMap
        (fun r => match r with
          | Except.error e => some e
          | Except.ok _ => none)
      if failures.isEmpty then Except.ok ()
      else Except.error (RunError.multipleFailed failures.length)

end Bulk

/-! Rate limiter, from crates/api/src/ratelimit.rs. Instants are integer
milliseconds; the x-ratelimit-reset header carries unix seconds and is
stored scaled to milliseconds. -/

/-- Accumulates a digit list into the number it denotes (base 10). -/
def parseDigits (l : List Char) : Nat :=
  l.foldl (fun n c => n * 10 + (c.toNat - 48)) 0

/-- Model of str::parse to an unsigned integer: succeeds exactly on a
nonempty all-digit string (kept executable on literals; overflow of the
fixed-width Rust types is not modelled, no claim depends on it). -/
def parse_nat? (s : String) : Option Nat :=
  if s.data ≠ [] ∧ s.data.all (fun c => c.isDigit) then
    some (parseDigits s.data)
  else none

/-- Model of str::parse to a signed 64-bit integer: an optional sign
followed by a nonempty digit string. -/
def parse_int? (s : String) : Option Int :=
  match s.data with
  | '-' :: rest =>
    if rest ≠ [] ∧ rest.all (fun c => c.isDigit) then
      some (-(parseDigits rest : Int))
    else none
  | '+' :: rest =>
    if rest ≠ [] ∧ rest.all (fun c => c.isDigit) then
      some ((parseDigits rest : Int))
    else none
  | l =>
    if l ≠ [] ∧ l.all (fun c => c.isDigit) then some ((parseDigits l : Int))
    else none

/-- RateLimitState of ratelimit.rs (reset_at as epoch milliseconds). -/
structure RateLimitState where
  remaining : Option Nat
  reset_at : Option Int
  limit : Option Nat
deriving Repr, DecidableEq

/-- The three recognized x-ratelimit response headers, each optionally
present with its raw string value. -/
structure RateLimitHeaders where
  limit : Option String
  remaining : Option String
  reset : Option String
deriving Repr, DecidableEq

/-- First if-let of RateLimiter::update_from_response: a present and
parseable x-ratelimit-limit header overwrites limit, else no change. -/
def apply_limit_header (st : RateLimitState) (o : Option String) :
    RateLimitState :=
  match o with
  | some s =>
    match parse_nat? s with
    | some v => { st with limit := some v }
    | none => st
  | none => st

/-- Second if-let of update_from_response: a present and parseable
x-ratelimit-remaining header overwrites remaining, else no change. -/
def apply_remaining_header (st : RateLimitState) (o : Option String) :
    RateLimitState :=
  match o with
  | some s =>
    match parse_nat? s with
    | some v => { st with remaining := some v }
    | none => st
  | none => st

/-- Third if-let of update_from_response: a present x-ratelimit-reset header
parsed as i64 unix seconds overwrites reset_at (stored as milliseconds),
else no change. -/
def apply_reset_header (st : RateLimitState) (o : Option String) :
    RateLimitState :=
  match o with
  | some s =>
    match parse_int? s with
    | some ts => { st with reset_at := some (ts * 1000) }
    | none => st
  | none => st

/-- RateLimiter::update_from_response: the three headers are examined in
source order (limit, remaining, reset); each, when present and parseable,
overwrites exactly its own field; an absent or unparsable header leaves its
field unchanged (never an error). Integer parsing is modelled by
parse_nat? and parse_int?. -/
def update_from_response (st : RateLimitState) (h : RateLimitHeaders) :
    RateLimitState :=
  apply_reset_header
    (apply_remaining_header (apply_limit_header st h.limit) h.remaining)
    h.reset

/-- RateLimiter::check_limit at the instant now (milliseconds): Some wait
(whole seconds, truncated as chrono num_seconds does for a positive
duration) exactly when remaining is recorded as 0 and reset_at is recorded
and strictly in the future; otherwise None. -/
def check_limit (st : RateLimitState) (now : Int) : Option Nat :=
  match st.remaining with
  | some r =>
    if r = 0 then
      match st.reset_at with
      | some resetAt =>
        if now < resetAt then some ((resetAt - now).toNat / 1000) else none
      | none => none
    else none
  | none => none

/-! Typed API errors, from crates/api/src/error.rs. -/

/-- ApiError of error.rs (each payload reduced to the data the source
carries: messages as strings, statuses and counts as naturals). -/
inductive ApiError where
  | requestFailed (message : String)
  | rateLimitExceeded (retry_after : Nat)
  | authenticationFailed (message : String)
  | notFound (resource : String)
  | badRequest (message : String)
  | serverError (status : Nat) (message : String)
  | invalidUrl (message : String)
  | jsonError (message : String)
  | timeout (attempts : Nat)
  | invalidResponse (message : String)
deriving Repr, DecidableEq

/-- ApiError::is_retryable: rate-limit errors, server errors with status at
least 500, and timeouts are retryable; everything else is not. -/
def ApiError.is_retryable : ApiError → Bool
  | ApiError.rateLimitExceeded _ => true
  | ApiError.serverError status _ => decide (500 ≤ status)
  | ApiError.timeout _ => true
  | _ => false

/-- The status classification of ApiClient::request (crates/api/src/lib.rs),
after the response has arrived: the arms are tried in source order
(401, 404, 400, 429, is_server_error = 500..=599, is_success = 200..=299,
catch-all). The retry-after header is parsed with a 60-second default; a
2xx body decode is abstracted by the decoded argument. -/
def classify_status {T : Type} (path : String) (status : Nat)
    (retryAfterHeader : Option String) (body : String)
    (decoded : Except String T) : Except ApiError T :=
  if status = 401 then
    Except.error (ApiError.authenticationFailed "Invalid or expired credentials")
  else if status = 404 then Except.error (ApiError.notFound path)
  else if status = 400 then Except.error (ApiError.badRequest body)
  else if status = 429 then
    Except.error (ApiError.rateLimitExceeded
      ((retryAfterHeader.bind parse_nat?).getD 60))
  else if 500 ≤ status ∧ status ≤ 599 then
    Except.error (ApiError.serverError status body)
  else if 200 ≤ status ∧ status ≤ 299 then
    match decoded with
    | Except.ok v => Except.ok v
    | Except.error m => Except.error (ApiError.invalidResponse m)
  else Except.error (ApiError.serverError status body)

/-! Retry with exponential backoff, from crates/api/src/retry.rs, together
with the relevant behavior of the backoff crate's ExponentialBackoff.
Durations are rationals (seconds). -/

/-- RetryConfig of retry.rs. -/
structure RetryConfig where
  max_retries : Nat
  initial_interval : ℚ
  max_interval : ℚ
  multiplier : ℚ
deriving Repr, DecidableEq

/-- The state of the backoff crate's ExponentialBackoff that next_backoff
consults: the current interval, the growth parameters, the optional
max_elapsed_time give-up bound, and the elapsed time since the generator
started (the crate reads a wall clock; here it accrues the produced
waits, which is irrelevant whenever max_elapsed_time is none). -/
structure ExponentialBackoff where
  current_interval : ℚ
  initial_interval : ℚ
  randomization_factor : ℚ
  multiplier : ℚ
  max_interval : ℚ
  max_elapsed_time : Option ℚ
  elapsed_time : ℚ
deriving Repr, DecidableEq

/-- RetryConfig::backoff: builds the generator with the configured
intervals, randomization_factor 0.1, and, crucially, max_elapsed_time
overridden to None. -/
def RetryConfig.backoff (c : RetryConfig) : ExponentialBackoff :=
  { current_interval := c.initial_interval
    initial_interval := c.initial_interval
    randomization_factor := 1 / 10
    multiplier := c.multiplier
    max_interval := c.max_interval
    max_elapsed_time := none
    elapsed_time := 0 }

/-- One successful step of next_backoff: the produced wait is the current
interval perturbed by the randomization factor scaled by a jitter draw u
(the crate draws u uniformly from the unit interval around 0); the current
interval then grows by the multiplier, capped at max_interval. -/
def backoffStep (b : ExponentialBackoff) (u : ℚ) : ℚ × ExponentialBackoff :=
  let wait := b.current_interval * (1 + b.randomization_factor * u)
  (wait,
    { b with
      current_interval := min (b.current_interval * b.multiplier) b.max_interval
      elapsed_time := b.elapsed_time + wait })

/-- next_backoff of the backoff crate: gives up (None) only when
max_elapsed_time is set and already exceeded by the elapsed time; otherwise
produces a wait and the advanced generator state. -/
def nextBackoff (b : ExponentialBackoff) (u : ℚ) :
    Option (ℚ × ExponentialBackoff) :=
  match b.max_elapsed_time with
  | some m => if m < b.elapsed_time then none else some (backoffStep b u)
  | none => some (backoffStep b u)

/-- The attempt loop of retry_with_backoff: attempts counts invocations of
the operation (the operation is modelled as a function of the attempt
number, so one run can answer differently per attempt; jitter supplies the
random draw per attempt). Returns the final result together with the
number of attempts consumed. A retryable error with attempts still below
max_retries asks the generator for a wait and loops; a generator refusal
synthesizes Timeout; any other error is returned unchanged. -/
def retryLoop {T : Type} (cfg : RetryConfig) (op : Nat → Except ApiError T)
    (jitter : Nat → ℚ) (b : ExponentialBackoff) (attempts : Nat) :
    Except ApiError T × Nat :=
  match op (attempts + 1) with
  | Except.ok t => (Except.ok t, attempts + 1)
  | Except.error e =>
    if h : e.is_retryable = true ∧ attempts + 1 < cfg.max_retries then
      match nextBackoff b (jitter (attempts + 1)) with
      | some (_, b2) => retryLoop cfg op jitter b2 (attempts + 1)
      | none => (Except.error (ApiError.timeout (attempts + 1)), attempts + 1)
    else (Except.error e, attempts + 1)
termination_by cfg.max_retries - attempts
decreasing_by omega

/-- retry_with_backoff of retry.rs: runs the attempt loop from a fresh
generator built by RetryConfig::backoff, starting at attempt count 0. -/
def retry_with_backoff {T : Type} (cfg : RetryConfig)
    (op : Nat → Except ApiError T) (jitter : Nat → ℚ) :
    Except ApiError T × Nat :=
  retryLoop cfg op jitter cfg.backoff 0

/-! Offset pagination, from crates/api/src/pagination.rs. -/

/-- PagedResponse of pagination.rs. -/
structure PagedResponse (T : Type) where
  values : List T
  start_at : Option Nat
  max_results : Option Nat
  total : Option Nat
  is_last : Option Bool
deriving Repr, DecidableEq

/-- PagedResponse::has_next: a present isLast decides alone; otherwise
startAt + maxResults < total when all three are present; otherwise false. -/
def PagedResponse.has_next {T : Type} (p : PagedResponse T) : Bool :=
  match p.is_last with
  | some b => !b
  | none =>
    match p.start_at, p.max_results, p.total with
    | some s, some m, some t => decide (s + m < t)
    | _, _, _ => false

/-- PagedResponse::next_start: None whenever has_next is false; otherwise
startAt + maxResults when both are present, else None. -/
def PagedResponse.next_start {T : Type} (p : PagedResponse T) : Option Nat :=
  if !p.has_next then none
  else
    match p.start_at, p.max_results with
    | some s, some m => some (s + m)
    | _, _ => none

/-- The fused loop of collect_pages driving Paginator::stream (both in
pagination.rs), with an explicit fetch-call counter. The consumer pulls one
page at a time: on a fetched page it appends the values, stops (dropping
the stream, so no further fetch happens) as soon as the accumulated length
reaches the limit, truncating to it; otherwise the stream continues only
while the page has a next page and was non-empty, advancing to next_start
with the heuristic fallback currentStart + maxResults. A fetch error is
propagated and ends the stream. The fuel bounds the number of iterations
(the theorems hold for every sufficient fuel). -/
def collect_pages_go {T : Type}
    (fetchPage : Nat → Nat → Except String (PagedResponse T))
    (maxResults : Nat) (limit : Option Nat) :
    Nat → Nat → Nat → List T → Except String (List T × Nat)
  | 0, _, calls, acc => Except.ok (acc, calls)
  | fuel + 1, startAt, calls, acc =>
    match fetchPage startAt maxResults with
    | Except.error e => Except.error e
    | Except.ok page =>
      let acc2 := acc ++ page.values
      let reachedLimit :=
        match limit with
        | some l => decide (l ≤ acc2.length)
        | none => false
      if reachedLimit then
        Except.ok (acc2.take (limit.getD acc2.length), calls + 1)
      else if !page.has_next || page.values.isEmpty then
        Except.ok (acc2, calls + 1)
      else
        collect_pages_go fetchPage maxResults limit fuel
          (page.next_start.getD (startAt + maxResults)) (calls + 1) acc2

/-- collect_pages of pagination.rs (result paired with the number of
fetch_page calls issued): drains the stream from startAt 0. -/
def collect_pages {T : Type}
    (fetchPage : Nat → Nat → Except String (PagedResponse T))
    (maxResults : Nat) (limit : Option Nat) (fuel : Nat) :
    Except String (List T × Nat) :=
  collect_pages_go fetchPage maxResults limit fuel 0 0 []

/-! Pagination theorems. -/

/-- C7: has_next is decided in this order: a present isLast answers with its
negation; otherwise, when startAt, maxResults and total are all present the
answer is startAt + maxResults < total; otherwise false. -/
theorem has_next_resolution {T : Type} (p : PagedResponse T) :
    (∀ b, p.is_last = some b → p.has_next = !b) ∧
    (p.is_last = none →
      ∀ s m t, p.start_at = some s → p.max_results = some m →
        p.total = some t → p.has_next = decide (s + m < t)) ∧
    (p.is_last = none →
      (p.start_at = none ∨ p.max_results = none ∨ p.total = none) →
      p.has_next = false) := by
  obtain ⟨v, sa, mr, tot, il⟩ := p
  refine ⟨?_, ?_, ?_⟩
  · intro b hb
    simp only at hb
    subst hb
    rfl
  · intro hil s m t hs hm ht
    simp only at hil hs hm ht
    subst hil; subst hs; subst hm; subst ht
    rfl
  · intro hil hor
    simp only at hil
    subst hil
    rcases hor with h | h | h <;> simp only at h <;> subst h
    · cases mr <;> cases tot <;> rfl
    · cases sa <;> cases tot <;> rfl
    · cases sa <;> cases mr <;> rfl

/-- Witness for C7: the three resolution branches evaluated on concrete
pages (isLast present, full offset metadata, missing startAt). -/
theorem has_next_resolution_witness :
    (PagedResponse.mk ([] : List Nat) (some 0) (some 2) (some 10)
        (some true)).has_next = !true ∧
    (PagedResponse.mk ([] : List Nat) (some 0) (some 2) (some 10)
        none).has_next = decide (0 + 2 < 10) ∧
    (PagedResponse.mk ([] : List Nat) none (some 2) (some 10)
        none).has_next = false :=
  ⟨(has_next_resolution _).1 true rfl,
   (has_next_resolution _).2.1 rfl 0 2 10 rfl rfl rfl,
   (has_next_resolution _).2.2 rfl (Or.inl rfl)⟩

/-- The page refuting C6: startAt and maxResults are both present, but
isLast true makes has_next false. -/
def c6page : PagedResponse Nat :=
  { values := [], start_at := some 0, max_results := some 2,
    total := none, is_last := some true }

/-- Counterexample to C6 as stated: on a page with startAt = 0 and
maxResults = 2 both present (but isLast = true), next_start returns none,
not some (0 + 2): next_start first consults has_next. -/
theorem next_start_counterexample :
    c6page.start_at = some 0 ∧ c6page.max_results = some 2 ∧
    c6page.next_start = none := by
  decide

/-- C6 amended: next_start returns some (startAt + maxResults) when
has_next is true and both fields are present; it returns none whenever
has_next is false or either field is absent. -/
theorem next_start_amended {T : Type} (p : PagedResponse T) :
    (p.has_next = false → p.next_start = none) ∧
    (∀ s m, p.has_next = true → p.start_at = some s →
      p.max_results = some m → p.next_start = some (s + m)) ∧
    (p.start_at = none ∨ p.max_results = none → p.next_start = none) := by
  refine ⟨?_, ?_, ?_⟩
  · intro h
    simp [PagedResponse.next_start, h]
  · intro s m h hs hm
    simp [PagedResponse.next_start, h, hs, hm]
  · intro hor
    cases hn : p.has_next with
    | false => simp [PagedResponse.next_start, hn]
    | true =>
      obtain ⟨v, sa, mr, tot, il⟩ := p
      rcases hor with h | h <;> simp only at h <;> subst h <;>
        simp only [PagedResponse.next_start, hn, Bool.not_true,
          Bool.false_eq_true, if_false]

/-- Witness for C6 amended: the three branches on concrete pages. -/
theorem next_start_amended_witness :
    c6page.next_start = none ∧
    (PagedResponse.mk ([] : List Nat) (some 4) (some 2) (some 10)
        none).next_start = some (4 + 2) ∧
    (PagedResponse.mk ([] : List Nat) none (some 2) none
        (some false)).next_start = none :=
  ⟨(next_start_amended c6page).1 rfl,
   (next_start_amended _).2.1 4 2 rfl rfl rfl,
   (next_start_amended _).2.2 (Or.inl rfl)⟩

/-- The three-page fixture of C8: pages of [1,2], [3,4], [5] with total 5
and maxResults 2; the last page declares isLast. -/
def c8fetch : Nat → Nat → Except String (PagedResponse Nat) :=
  fun startAt _ =>
    if startAt = 0 then
      Except.ok { values := [1, 2], start_at := some 0, max_results := some 2,
                  total := some 5, is_last := none }
    else if startAt = 2 then
      Except.ok { values := [3, 4], start_at := some 2, max_results := some 2,
                  total := some 5, is_last := none }
    else if startAt = 4 then
      Except.ok { values := [5], start_at := some 4, max_results := some 2,
                  total := some 5, is_last := some true }
    else Except.error "no such page"

/-- C8: collect_pages with limit 3 over the three-page fixture returns
exactly [1, 2, 3] and issues exactly 2 fetch_page calls — the limit is
reached on the second page, the stream is dropped, and the third page is
never fetched. Holds for every fuel bound of at least 2 iterations. -/
theorem collect_pages_limit_three (fuel : Nat) (h : 2 ≤ fuel) :
    collect_pages c8fetch 2 (some 3) fuel = Except.ok ([1, 2, 3], 2) := by
  obtain ⟨k, rfl⟩ : ∃ k, fuel = k + 2 := ⟨fuel - 2, by omega⟩
  rfl

/-- Witness for C8: the fuel bound 2 suffices. -/
theorem collect_pages_limit_three_witness :
    collect_pages c8fetch 2 (some 3) 2 = Except.ok ([1, 2, 3], 2) :=
  collect_pages_limit_three 2 (by decide)

/-! Rate limiter theorems. -/

theorem apply_limit_header_remaining (st : RateLimitState) (o : Option String) :
    (apply_limit_header st o).remaining = st.remaining := by
  cases o with
  | none => rfl
  | some s => cases hs : parse_nat? s <;> simp [apply_limit_header, hs]

theorem apply_limit_header_reset (st : RateLimitState) (o : Option String) :
    (apply_limit_header st o).reset_at = st.reset_at := by
  cases o with
  | none => rfl
  | some s => cases hs : parse_nat? s <;> simp [apply_limit_header, hs]

theorem apply_remaining_header_limit (st : RateLimitState) (o : Option String) :
    (apply_remaining_header st o).limit = st.limit := by
  cases o with
  | none => rfl
  | some s => cases hs : parse_nat? s <;> simp [apply_remaining_header, hs]

theorem apply_remaining_header_reset (st : RateLimitState) (o : Option String) :
    (apply_remaining_header st o).reset_at = st.reset_at := by
  cases o with
  | none => rfl
  | some s => cases hs : parse_nat? s <;> simp [apply_remaining_header, hs]

theorem apply_reset_header_limit (st : RateLimitState) (o : Option String) :
    (apply_reset_header st o).limit = st.limit := by
  cases o with
  | none => rfl
  | some s => cases hs : parse_int? s <;> simp [apply_reset_header, hs]

theorem apply_reset_header_remaining (st : RateLimitState) (o : Option String) :
    (apply_reset_header st o).remaining = st.remaining := by
  cases o with
  | none => rfl
  | some s => cases hs : parse_int? s <;> simp [apply_reset_header, hs]

/-- C4: check_limit answers some wait exactly when the recorded remaining is
zero and the recorded reset_at lies strictly in the future, the wait being
the truncated whole-second difference; in every other state (no remaining,
nonzero remaining, no reset_at, reset_at in the past) it answers none.
After an update that records only remaining = 0 and a reset between 9 and
10 seconds in the future, the answered wait w satisfies 9 ≤ w ≤ 10. -/
theorem check_limit_spec (st : RateLimitState) (now : Int) :
    (∀ w, check_limit st now = some w ↔
      (st.remaining = some 0 ∧ ∃ r, st.reset_at = some r ∧ now < r ∧
        w = (r - now).toNat / 1000)) ∧
    (∀ st0 (s0 srst : String) (ts : Int), parse_nat? s0 = some 0 →
      parse_int? srst = some ts →
      9000 < ts * 1000 - now → ts * 1000 - now ≤ 10000 →
      ∃ w, check_limit (update_from_response st0
          { limit := none, remaining := some s0, reset := some srst }) now
          = some w ∧ 9 ≤ w ∧ w ≤ 10) := by
  constructor
  · intro w
    cases hrem : st.remaining with
    | none => simp [check_limit, hrem]
    | some r =>
      by_cases hr : r = 0
      · subst hr
        cases hrst : st.reset_at with
        | none => simp [check_limit, hrem, hrst]
        | some resetAt =>
          by_cases hlt : now < resetAt
          · simp [check_limit, hrem, hrst, hlt]
            omega
          · simp [check_limit, hrem, hrst, hlt]
      · simp [check_limit, hrem, hr]
  · intro st0 s0 srst ts h0 hts h1 h2
    have hstate : update_from_response st0
        { limit := none, remaining := some s0, reset := some srst }
        = { remaining := some 0,
            reset_at := some (ts * 1000),
            limit := (apply_limit_header st0 none).limit } := by
      simp only [update_from_response, apply_reset_header,
        apply_remaining_header, h0, hts]
    refine ⟨(ts * 1000 - now).toNat / 1000, ?_, ?_, ?_⟩
    · have hlt : now < ts * 1000 := by omega
      simp [hstate, check_limit, hlt]
    · omega
    · omega

/-- Witness for C4: a state with remaining 0 and reset 10 unix seconds
(stored as 10000 ms) against now = 500 ms waits w with 9 ≤ w ≤ 10, via the
update-then-check part of the theorem. -/
theorem check_limit_spec_witness :
    ∃ w, check_limit (update_from_response
        { remaining := none, reset_at := none, limit := none }
        { limit := none, remaining := some "0", reset := some "10" }) 500
        = some w ∧ 9 ≤ w ∧ w ≤ 10 :=
  (check_limit_spec { remaining := none, reset_at := none, limit := none }
      500).2
    { remaining := none, reset_at := none, limit := none } "0" "10" 10
    (by decide) (by decide) (by decide) (by decide)

/-- C9: for each of the three rate-limit headers, an absent or unparsable
header leaves exactly its own field unchanged (the update is total, never
fatal); and an update whose headers contain only a parseable
x-ratelimit-limit overwrites limit and leaves remaining and reset_at
untouched. -/
theorem update_from_response_frame (st : RateLimitState)
    (h : RateLimitHeaders) :
    ((h.remaining = none ∨ ∃ s, h.remaining = some s ∧ parse_nat? s = none) →
      (update_from_response st h).remaining = st.remaining) ∧
    ((h.reset = none ∨ ∃ s, h.reset = some s ∧ parse_int? s = none) →
      (update_from_response st h).reset_at = st.reset_at) ∧
    ((h.limit = none ∨ ∃ s, h.limit = some s ∧ parse_nat? s = none) →
      (update_from_response st h).limit = st.limit) ∧
    (∀ s v, parse_nat? s = some v →
      update_from_response st
          { limit := some s, remaining := none, reset := none }
        = { st with limit := some v }) := by
  refine ⟨?_, ?_, ?_, ?_⟩
  · intro hcase
    rw [update_from_response, apply_reset_header_remaining]
    have hmid : ∀ st2 : RateLimitState,
        (apply_remaining_header st2 h.remaining).remaining = st2.remaining := by
      intro st2
      rcases hcase with hnone | ⟨s, hsome, hparse⟩
      · rw [hnone]
        rfl
      · rw [hsome]
        simp [apply_remaining_header, hparse]
    rw [hmid, apply_limit_header_remaining]
  · intro hcase
    rw [update_from_response]
    have hlast : ∀ st2 : RateLimitState,
        (apply_reset_header st2 h.reset).reset_at = st2.reset_at := by
      intro st2
      rcases hcase with hnone | ⟨s, hsome, hparse⟩
      · rw [hnone]
        rfl
      · rw [hsome]
        simp [apply_reset_header, hparse]
    rw [hlast, apply_remaining_header_reset, apply_limit_header_reset]
  · intro hcase
    rw [update_from_response, apply_reset_header_limit,
      apply_remaining_header_limit]
    rcases hcase with hnone | ⟨s, hsome, hparse⟩
    · rw [hnone]
      rfl
    · rw [hsome]
      simp [apply_limit_header, hparse]
  · intro s v hparse
    simp [update_from_response, apply_reset_header, apply_remaining_header,
      apply_limit_header, hparse]

/-- Witness for C9: updating a fully-recorded state with only
x-ratelimit-limit 5 overwrites limit and leaves remaining and reset_at
untouched, and the remaining field also survives via the absent-header
frame clause. -/
theorem update_from_response_frame_witness :
    update_from_response
        { remaining := some 7, reset_at := some 123, limit := some 9 }
        { limit := some "5", remaining := none, reset := none }
      = { remaining := some 7, reset_at := some 123, limit := some 5 } ∧
    (update_from_response
        { remaining := some 7, reset_at := some 123, limit := some 9 }
        { limit := some "5", remaining := none, reset := none }).remaining
      = some 7 :=
  ⟨(update_from_response_frame
      { remaining := some 7, reset_at := some 123, limit := some 9 }
      { limit := some "5", remaining := none, reset := none }).2.2.2 "5" 5
      (by decide),
   (update_from_response_frame
      { remaining := some 7, reset_at := some 123, limit := some 9 }
      { limit := some "5", remaining := none, reset := none }).1
      (Or.inl rfl)⟩

/-! Response classification theorems. -/

/-- Counterexample to C5 as stated: status 600 lies outside
400, 401, 404, 429, the 2xx range and the 5xx range (http statuses run up
to 999), so the claim asserts a non-retryable ServerError for it — but the
catch-all arm produces ServerError 600 and is_retryable tests 500 ≤ status,
so this error is retryable. -/
theorem classify_status_counterexample :
    ¬ (600 = 400 ∨ 600 = 401 ∨ 600 = 404 ∨ 600 = 429 ∨
        (200 ≤ 600 ∧ 600 ≤ 299) ∨ (500 ≤ 600 ∧ 600 ≤ 599)) ∧
    classify_status "/x" 600 none "m" (Except.error "d" : Except String Unit)
      = Except.error (ApiError.serverError 600 "m") ∧
    (ApiError.serverError 600 "m").is_retryable = true := by
  refine ⟨by decide, rfl, rfl⟩

/-- C5 amended: a 429 response is classified as RateLimitExceeded with
retry_after taken from the retry-after header, defaulting to 60 when the
header is absent or unparsable, and that error is retryable; every status
outside 400, 401, 404, 429, 2xx and 5xx is classified as ServerError
carrying that status, and such an error is retryable exactly when its
status is at least 500 — below 500 (the only possibility for statuses up
to 599) it is not retryable, while statuses of 600 and above are also
classified as ServerError but are retryable. -/
theorem classify_status_spec {T : Type} (path body : String)
    (hdr : Option String) (decoded : Except String T) (s : Nat) :
    (classify_status path 429 hdr body decoded
        = Except.error (ApiError.rateLimitExceeded
            ((hdr.bind parse_nat?).getD 60)) ∧
      (ApiError.rateLimitExceeded ((hdr.bind parse_nat?).getD 60)).is_retryable
        = true) ∧
    (¬ (s = 400 ∨ s = 401 ∨ s = 404 ∨ s = 429 ∨
        (200 ≤ s ∧ s ≤ 299) ∨ (500 ≤ s ∧ s ≤ 599)) →
      classify_status path s hdr body decoded
          = Except.error (ApiError.serverError s body) ∧
      ((ApiError.serverError s body).is_retryable = true ↔ 500 ≤ s)) := by
  constructor
  · exact ⟨rfl, rfl⟩
  · intro hs
    push_neg at hs
    obtain ⟨h400, h401, h404, h429, h2xx, h5xx⟩ := hs
    have hns : ¬ (500 ≤ s ∧ s ≤ 599) := fun hc => absurd hc.2 (by
      intro hle
      exact absurd (h5xx hc.1) (by omega))
    have hnok : ¬ (200 ≤ s ∧ s ≤ 299) := fun hc => absurd hc.2 (by
      intro hle
      exact absurd (h2xx hc.1) (by omega))
    refine ⟨?_, ?_⟩
    · simp [classify_status, h400, h401, h404, h429, hns, hnok]
    · simp [ApiError.is_retryable]

/-- Witness for C5 amended: a 302 response with an unparsable retry-after
header classifies as a non-retryable ServerError 302, and the 429 clause
with that header defaults retry_after to 60. -/
theorem classify_status_spec_witness :
    (classify_status "/p" 429 (some "soon") "b"
        (Except.error "x" : Except String Nat)
        = Except.error (ApiError.rateLimitExceeded
            (((some "soon").bind parse_nat?).getD 60)) ∧
      (ApiError.rateLimitExceeded
          (((some "soon").bind parse_nat?).getD 60)).is_retryable = true) ∧
    (classify_status "/p" 302 (some "soon") "b"
        (Except.error "x" : Except String Nat)
        = Except.error (ApiError.serverError 302 "b") ∧
      ((ApiError.serverError 302 "b").is_retryable = true ↔ 500 ≤ 302)) :=
  ⟨(classify_status_spec "/p" "b" (some "soon")
      (Except.error "x" : Except String Nat) 302).1,
   (classify_status_spec "/p" "b" (some "soon")
      (Except.error "x" : Except String Nat) 302).2 (by decide)⟩

/-! Bulk executor theorems. -/

namespace Bulk

/-- The success an indexed task result contributes, if any. -/
def okSel {R : Type} (p : Nat × Except String R) : Option R :=
  p.2.toOption

/-- The indexed failure an indexed task result contributes, if any. -/
def errSel {R : Type} (p : Nat × Except String R) : Option (Nat × String) :=
  match p.2 with
  | Except.error e => some (p.1, e)
  | Except.ok _ => none

theorem partitionResults_successful {R : Type} :
    ∀ l : List (Nat × Except String R),
      (partitionResults l).successful = l.filterMap okSel
  | [] => rfl
  | (i, Except.ok v) :: rest => by
    simp [partitionResults, List.filterMap_cons, okSel, Except.toOption,
      partitionResults_successful rest]
  | (i, Except.error e) :: rest => by
    simp [partitionResults, List.filterMap_cons, okSel, Except.toOption,
      partitionResults_successful rest]

theorem partitionResults_failed {R : Type} :
    ∀ l : List (Nat × Except String R),
      (partitionResults l).failed = l.filterMap errSel
  | [] => rfl
  | (i, Except.ok v) :: rest => by
    simp [partitionResults, List.filterMap_cons, errSel,
      partitionResults_failed rest]
  | (i, Except.error e) :: rest => by
    simp [partitionResults, List.filterMap_cons, errSel,
      partitionResults_failed rest]

theorem taskResultsFrom_false_eq_enumFrom {T R : Type}
    (job : T → Except String R) :
    ∀ (k : Nat) (items : List T),
      taskResultsFrom false job k items
        = (items.enumFrom k).map (fun p => (p.1, job p.2))
  | _, [] => rfl
  | k, x :: rest => by
    simp [taskResultsFrom, List.enumFrom,
      taskResultsFrom_false_eq_enumFrom job (k + 1) rest]

theorem taskResultsFrom_false_okSel {T R : Type}
    (job : T → Except String R) :
    ∀ (k : Nat) (items : List T),
      (taskResultsFrom false job k items).filterMap okSel
        = items.filterMap (fun x => (job x).toOption)
  | _, [] => rfl
  | k, x :: rest => by
    simp only [taskResultsFrom, Bool.false_eq_true, if_false,
      List.filterMap_cons]
    cases hjx : job x <;>
      simp [okSel, Except.toOption, hjx,
        taskResultsFrom_false_okSel job (k + 1) rest]

/-- The failures produced by the non-dry-run tasks: exactly the enumerated
items on which the job errs, paired with their zero-based index. -/
theorem taskResults_false_errSel {T R : Type} (job : T → Except String R)
    (items : List T) :
    (taskResults false items job).filterMap errSel
      = items.enum.filterMap (fun p =>
          match job p.2 with
          | Except.error e => some (p.1, e)
          | Except.ok _ => none) := by
  rw [taskResults, taskResultsFrom_false_eq_enumFrom, List.filterMap_map]
  rfl

theorem mk_mem_enumFrom {T : Type} (items : List T) :
    ∀ (k i : Nat) (x : T),
      ((i, x) ∈ items.enumFrom k)
        ↔ ∃ d : Nat, ∃ hd : d < items.length,
            i = k + d ∧ items.get ⟨d, hd⟩ = x := by
  induction items with
  | nil =>
    intro k i x
    simp [List.enumFrom]
  | cons y rest ih =>
    intro k i x
    simp only [List.enumFrom, List.mem_cons, Prod.mk.injEq, ih (k + 1)]
    constructor
    · rintro (⟨rfl, rfl⟩ | ⟨d, hd, rfl, hget⟩)
      · exact ⟨0, by simp, by omega, rfl⟩
      · exact ⟨d + 1, by simpa using hd, by omega, by simpa using hget⟩
    · rintro ⟨d, hd, rfl, hget⟩
      cases d with
      | zero =>
        left
        exact ⟨by omega, by simpa using hget.symm⟩
      | succ d2 =>
        right
        exact ⟨d2, by simpa using hd, by omega, by simpa using hget⟩

theorem mem_taskResults_false_errSel {T R : Type} (job : T → Except String R)
    (items : List T) (i : Nat) (e : String) :
    ((i, e) ∈ (taskResults false items job).filterMap errSel)
      ↔ ∃ hd : i < items.length,
          job (items.get ⟨i, hd⟩) = Except.error e := by
  rw [taskResults_false_errSel, List.mem_filterMap]
  constructor
  · rintro ⟨⟨j, x⟩, hmem, hsel⟩
    simp only at hsel
    cases hjx : job x with
    | ok v =>
      rw [hjx] at hsel
      cases hsel
    | error e2 =>
      rw [hjx] at hsel
      obtain ⟨rfl, rfl⟩ : j = i ∧ e2 = e := by
        simpa using hsel
      obtain ⟨d, hd, hjd, hget⟩ := (mk_mem_enumFrom items 0 j x).mp hmem
      obtain rfl : d = j := by omega
      exact ⟨hd, by rw [hget, hjx]⟩
  · rintro ⟨hd, hjob⟩
    refine ⟨(i, items.get ⟨i, hd⟩), ?_, ?_⟩
    · exact (mk_mem_enumFrom items 0 i _).mpr ⟨i, hd, by omega, rfl⟩
    · simp only [hjob]

theorem taskResultsFrom_true_eq {T R : Type}
    (job1 job2 : T → Except String R) :
    ∀ (k : Nat) (items : List T),
      taskResultsFrom true job1 k items = taskResultsFrom true job2 k items
  | _, [] => rfl
  | k, x :: rest => by
    simp [taskResultsFrom, taskResultsFrom_true_eq job1 job2 (k + 1) rest]

theorem taskResultsFrom_true_okSel {T R : Type} (job : T → Except String R) :
    ∀ (k : Nat) (items : List T),
      (taskResultsFrom true job k items).filterMap okSel = []
  | _, [] => rfl
  | k, x :: rest => by
    simp [taskResultsFrom, List.filterMap_cons, okSel, Except.toOption,
      taskResultsFrom_true_okSel job (k + 1) rest]

theorem taskResultsFrom_true_errSel {T R : Type} (job : T → Except String R) :
    ∀ (k : Nat) (items : List T),
      (taskResultsFrom true job k items).filterMap errSel
        = (List.range' k items.length).map (fun i => (i, dryRunMessage))
  | _, [] => rfl
  | k, x :: rest => by
    simp [taskResultsFrom, List.filterMap_cons, errSel, List.range'_succ,
      taskResultsFrom_true_errSel job (k + 1) rest]

/-- C1: with dry_run false, under any completion order, the BulkResult of
execute_with_results partitions the inputs exactly: successful is a
permutation of the job outputs on the succeeding items, failed is a
permutation of the (zero-based original index, error) pairs of the failing
items, and each input index lands in failed precisely when its job errs —
never both sides, never neither. -/
theorem execute_with_results_partition {T R : Type} (items : List T)
    (job : T → Except String R)
    (schedule : List (Nat × Except String R) → List (Nat × Except String R))
    (hs : ∀ l, (schedule l).Perm l) :
    (execute_with_results false items job schedule).successful.Perm
      (items.filterMap (fun x => (job x).toOption)) ∧
    (execute_with_results false items job schedule).failed.Perm
      (items.enum.filterMap (fun p =>
        match job p.2 with
        | Except.error e => some (p.1, e)
        | Except.ok _ => none)) ∧
    (∀ i, ∀ hi : i < items.length,
      ((∃ e, (i, e) ∈ (execute_with_results false items job schedule).failed)
        ↔ ∃ e, job (items.get ⟨i, hi⟩) = Except.error e)) := by
  have hfailed : (execute_with_results false items job schedule).failed.Perm
      ((taskResults false items job).filterMap errSel) := by
    rw [execute_with_results, partitionResults_failed]
    exact (hs _).filterMap errSel
  refine ⟨?_, ?_, ?_⟩
  · rw [execute_with_results, partitionResults_successful]
    have h2 := (hs (taskResults false items job)).filterMap okSel
    rw [taskResults, taskResultsFrom_false_okSel job 0 items] at h2
    exact h2
  · have h3 := taskResults_false_errSel job items
    rw [h3] at hfailed
    exact hfailed
  · intro i hi
    constructor
    · rintro ⟨e, hmem⟩
      have hmem2 : (i, e) ∈ (taskResults false items job).filterMap errSel :=
        hfailed.mem_iff.mp hmem
      obtain ⟨hd, hjob⟩ :=
        (mem_taskResults_false_errSel job items i e).mp hmem2
      exact ⟨e, hjob⟩
    · rintro ⟨e, hjob⟩
      refine ⟨e, hfailed.mem_iff.mpr ?_⟩
      exact (mem_taskResults_false_errSel job items i e).mpr ⟨hi, hjob⟩

/-- The job of the C1 witness: fails on the even items. -/
def c1job : Nat → Except String Nat :=
  fun n => if n % 2 = 0 then Except.error "boom" else Except.ok (10 * n)

/-- Witness for C1: over items [1, 2, 3, 4] with the job failing on 2 and 4
and results delivered in reversed completion order, successful holds the
outputs of items 1 and 3 and failed is exactly the pairs (1, err) and
(3, err) with zero-based original indices. -/
theorem execute_with_results_partition_witness :
    (execute_with_results false [1, 2, 3, 4] c1job
        List.reverse).successful.Perm [10, 30] ∧
    (execute_with_results false [1, 2, 3, 4] c1job
        List.reverse).failed.Perm [(1, "boom"), (3, "boom")] := by
  have h := execute_with_results_partition [1, 2, 3, 4] c1job List.reverse
    (fun l => l.reverse_perm)
  exact ⟨h.1.trans (by decide), h.2.1.trans (by decide)⟩

/-- C2: with dry_run true, under any completion order: the task results do
not depend on the job (its body and side effects never execute) in either
mode; run reports success; and execute_with_results reports an empty
successful list with every input index failed with the synthetic dry-run
error. -/
theorem dry_run_behavior {T R : Type} (failFast : Bool) (items : List T)
    (jobU jobU2 : T → Except String Unit) (job job2 : T → Except String R)
    (schedR : List (Except String Unit) → List (Except String Unit))
    (schedE : List (Nat × Except String R) → List (Nat × Except String R))
    (hsR : ∀ l, (schedR l).Perm l) (hsE : ∀ l, (schedE l).Perm l) :
    taskResults true items job = taskResults true items job2 ∧
    runTaskResults true items jobU = runTaskResults true items jobU2 ∧
    run failFast true items jobU schedR = Except.ok () ∧
    (execute_with_results true items job schedE).successful = [] ∧
    (execute_with_results true items job schedE).failed.Perm
      ((List.range items.length).map (fun i => (i, dryRunMessage))) := by
  refine ⟨taskResultsFrom_true_eq job job2 0 items, ?_, ?_, ?_, ?_⟩
  · simp [runTaskResults]
  · have hall : ∀ r ∈ schedR (runTaskResults true items jobU),
        r = Except.ok () := by
      intro r hr
      have hr2 : r ∈ runTaskResults true items jobU :=
        ((hsR _).mem_iff).mp hr
      simp only [runTaskResults, if_true, List.mem_map] at hr2
      obtain ⟨x, -, hx⟩ := hr2
      simp [← hx]
    by_cases he : items.isEmpty
    · simp [run, he]
    · cases failFast with
      | false =>
        have hnil : (schedR (runTaskResults true items jobU)).filterMap
            (fun r => match r with
              | Except.error e => some e
              | Except.ok _ => none) = [] := by
          rw [List.filterMap_eq_nil_iff]
          intro a ha
          rw [hall a ha]
        simp [run, he, hnil]
      | true =>
        have hnone : (schedR (runTaskResults true items jobU)).findSome?
            (fun r => match r with
              | Except.error e => some e
              | Except.ok _ => none) = none := by
          rw [List.findSome?_eq_none_iff]
          intro a ha
          rw [hall a ha]
        simp [run, he, hnone]
  · rw [execute_with_results, partitionResults_successful]
    have h2 := (hsE (taskResults true items job)).filterMap okSel
    rw [taskResults, taskResultsFrom_true_okSel job 0 items] at h2
    exact h2.eq_nil
  · rw [execute_with_results, partitionResults_failed]
    have h2 := (hsE (taskResults true items job)).filterMap errSel
    rw [taskResults, taskResultsFrom_true_errSel job 0 items] at h2
    rw [List.range_eq_range']
    exact h2

/-- Witness for C2: three items, fail-fast on, dry run on, reversed
completion orders: the job is irrelevant to the task results, run succeeds,
and every index 0, 1, 2 is reported failed with the dry-run marker. -/
theorem dry_run_behavior_witness :
    taskResults true [1, 2, 3] (fun n => Except.ok (n * 2))
        = taskResults true [1, 2, 3] (fun _ => Except.error "other") ∧
    runTaskResults true [1, 2, 3] (fun _ => Except.error "boom")
        = runTaskResults true [1, 2, 3] (fun _ => Except.ok ()) ∧
    run true true [1, 2, 3] (fun _ => Except.error "boom") List.reverse
        = Except.ok () ∧
    (execute_with_results true [1, 2, 3] (fun n => Except.ok (n * 2))
        List.reverse).successful = [] ∧
    (execute_with_results true [1, 2, 3] (fun n => Except.ok (n * 2))
        List.reverse).failed.Perm
      ((List.range ([1, 2, 3] : List Nat).length).map
        (fun i => (i, dryRunMessage))) := by
  have h := dry_run_behavior true [1, 2, 3]
    (fun _ => Except.error "boom") (fun _ => Except.ok ())
    (fun n => Except.ok (n * 2)) (fun _ => Except.error "other")
    List.reverse List.reverse
    (fun l => l.reverse_perm) (fun l => l.reverse_perm)
  exact h

end Bulk

/-! Retry theorems. -/

theorem nextBackoff_of_none (b : ExponentialBackoff) (u : ℚ)
    (h : b.max_elapsed_time = none) :
    nextBackoff b u = some ((backoffStep b u).1, (backoffStep b u).2) := by
  rw [nextBackoff, h]

theorem backoffStep_max_elapsed (b : ExponentialBackoff) (u : ℚ) :
    (backoffStep b u).2.max_elapsed_time = b.max_elapsed_time := rfl

/-- Whenever the generator cannot give up (max_elapsed_time none, as built
by RetryConfig::backoff), the pair the attempt loop returns is exactly the
operation's own result at the attempt count it also returns: the loop
never reaches the Timeout-synthesizing branch. -/
theorem retryLoop_op_origin {T : Type} (cfg : RetryConfig)
    (op : Nat → Except ApiError T) (jitter : Nat → ℚ) :
    ∀ (b : ExponentialBackoff) (attempts : Nat),
      b.max_elapsed_time = none →
      (retryLoop cfg op jitter b attempts).1
        = op (retryLoop cfg op jitter b attempts).2 := by
  suffices h : ∀ (k : Nat) (b : ExponentialBackoff) (attempts : Nat),
      cfg.max_retries - attempts = k → b.max_elapsed_time = none →
      (retryLoop cfg op jitter b attempts).1
        = op (retryLoop cfg op jitter b attempts).2 by
    intro b attempts hb
    exact h _ b attempts rfl hb
  intro k
  induction k with
  | zero =>
    intro b attempts hk hb
    rw [retryLoop]
    split
    · rename_i t heq
      simp [heq]
    · rename_i e heq
      rw [dif_neg (by rintro ⟨-, hlt⟩; omega :
        ¬ (e.is_retryable = true ∧ attempts + 1 < cfg.max_retries))]
      simp [heq]
  | succ k2 ih =>
    intro b attempts hk hb
    rw [retryLoop]
    split
    · rename_i t heq
      simp [heq]
    · rename_i e heq
      by_cases hcond : e.is_retryable = true ∧ attempts + 1 < cfg.max_retries
      · rw [dif_pos hcond, nextBackoff_of_none b (jitter (attempts + 1)) hb]
        exact ih _ (attempts + 1) (by omega)
          (by rw [backoffStep_max_elapsed]; exact hb)
      · rw [dif_neg hcond]
        simp [heq]

/-- C10: retry_with_backoff can never synthesize Timeout: the generator is
built by RetryConfig::backoff with max_elapsed_time none, next_backoff on
that generator always yields a wait, and the (result, attempts) pair
returned to the caller is exactly the operation's own result at the final
attempt — so any error surfaced is an error the operation itself produced
and the Timeout branch is unreachable for every config and operation. -/
theorem retry_never_synthesizes_timeout {T : Type} (cfg : RetryConfig)
    (op : Nat → Except ApiError T) (jitter : Nat → ℚ) :
    cfg.backoff.max_elapsed_time = none ∧
    (∀ u, (nextBackoff cfg.backoff u).isSome = true) ∧
    (retry_with_backoff cfg op jitter).1
      = op (retry_with_backoff cfg op jitter).2 := by
  refine ⟨rfl, ?_, ?_⟩
  · intro u
    rw [nextBackoff_of_none _ _ rfl]
    rfl
  · exact retryLoop_op_origin cfg op jitter cfg.backoff 0 rfl

/-- An operation that fails every attempt with a retryable error drives the
attempt loop to the retry ceiling: from any attempt count still below
max_retries, the loop returns the error of the final (max_retries-th)
invocation, with the attempt counter at max_retries. -/
theorem retryLoop_exhausts {T : Type} (cfg : RetryConfig)
    (op : Nat → Except ApiError T) (errOf : Nat → ApiError)
    (jitter : Nat → ℚ)
    (hop : ∀ n, op n = Except.error (errOf n))
    (hret : ∀ n, (errOf n).is_retryable = true) :
    ∀ (k : Nat) (b : ExponentialBackoff) (attempts : Nat),
      cfg.max_retries - attempts = k → b.max_elapsed_time = none →
      attempts < cfg.max_retries →
      retryLoop cfg op jitter b attempts
        = (Except.error (errOf cfg.max_retries), cfg.max_retries) := by
  intro k
  induction k with
  | zero =>
    intro b attempts hk hb hlt
    omega
  | succ k2 ih =>
    intro b attempts hk hb hlt
    rw [retryLoop]
    split
    · rename_i t heq
      rw [hop (attempts + 1)] at heq
      simp at heq
    · rename_i e heq
      rw [hop (attempts + 1)] at heq
      obtain rfl : errOf (attempts + 1) = e := by simpa using heq
      by_cases hcond : attempts + 1 < cfg.max_retries
      · rw [dif_pos ⟨hret (attempts + 1), hcond⟩,
          nextBackoff_of_none b (jitter (attempts + 1)) hb]
        exact ih _ (attempts + 1) (by omega)
          (by rw [backoffStep_max_elapsed]; exact hb) hcond
      · rw [dif_neg (by rintro ⟨-, h2⟩; exact hcond h2 :
          ¬ ((errOf (attempts + 1)).is_retryable = true ∧
            attempts + 1 < cfg.max_retries))]
        have hfin : attempts + 1 = cfg.max_retries := by omega
        rw [hfin]

/-- C3: with max_retries 3 and an operation that fails every invocation
with a retryable error, retry_with_backoff invokes the operation exactly 3
times and returns the error produced by the third invocation unchanged —
not a synthesized Timeout. -/
theorem retry_exhausts_with_original_error {T : Type} (cfg : RetryConfig)
    (hmax : cfg.max_retries = 3) (op : Nat → Except ApiError T)
    (errOf : Nat → ApiError) (jitter : Nat → ℚ)
    (hop : ∀ n, op n = Except.error (errOf n))
    (hret : ∀ n, (errOf n).is_retryable = true) :
    retry_with_backoff cfg op jitter = (Except.error (errOf 3), 3) := by
  have h := retryLoop_exhausts cfg op errOf jitter hop hret
    (cfg.max_retries - 0) cfg.backoff 0 rfl rfl (by omega)
  rw [retry_with_backoff, h, hmax]

/-- The retry configuration of the C3 witness (the source's defaults:
3 retries, 500 ms initial, 30 s cap, multiplier 2). -/
def c3config : RetryConfig :=
  { max_retries := 3, initial_interval := 1 / 2, max_interval := 30,
    multiplier := 2 }

/-- Witness for C3: a concrete operation failing every attempt with the
retryable ServerError 500 is invoked 3 times and its own error comes back
unchanged. -/
theorem retry_exhausts_with_original_error_witness :
    retry_with_backoff c3config
        (fun _ => Except.error (ApiError.serverError 500 "boom") :
          Nat → Except ApiError Unit)
        (fun _ => 0)
      = (Except.error (ApiError.serverError 500 "boom"), 3) :=
  retry_exhausts_with_original_error c3config rfl
    (fun _ => Except.error (ApiError.serverError 500 "boom"))
    (fun _ => ApiError.serverError 500 "boom") (fun _ => 0)
    (fun _ => rfl) (fun _ => rfl)

end AtlassianCli
